import Mathlib

/-!
Verification of the multi-agent AI use-case generator pipeline
(`ai-use-case-generator`): a shallow embedding in Lean 4 of the data model
(`agents/__init__.py`), the research agent (`agents/research_agent.py`),
the use-case generator (`agents/use_case_generator.py`), the resource
collector (`agents/resource_collector.py`), the markdown report generator
(`markdown_generator.py`) and the workflow orchestrator routing
(`streamlit_app.py`), together with theorems settling the behavioural
claims about them.

External collaborators (the Tavily search adapter, the OpenAI language
model, the GitHub search API, the network session used for URL probes and
the ChromaDB document store) are modelled as explicit oracles passed as
arguments: a network call that may raise is an `Except`/sum value, a probe
is a function from attempt index to outcome, and the dictionary produced
by `json.loads` is an association list.  Python floats are modelled as
rationals (`ℚ`); all float arithmetic in the source is exact on the values
exercised here.
-/

/-! ## Data model (`agents/__init__.py`) -/

namespace Agents

/-- `ResourceType` enum from `agents/__init__.py`. -/
inductive ResourceType
  | dataset
  | documentation
  | github_repo
  | research_paper
deriving DecidableEq

/-- `Resource` dataclass from `agents/__init__.py`: an external artifact
supporting a use case.  `use_case_id` is the owning use case's title. -/
structure Resource where
  type : ResourceType
  title : String
  url : String
  description : String
  relevance_score : ℚ
  use_case_id : String
deriving DecidableEq

/-- `UseCase` dataclass from `agents/__init__.py` (the variant imported by
`resource_collector.py`; `complexity` is a string there). -/
structure UseCase where
  title : String
  description : String
  impact : String
  complexity : String
  timeline : String
  priority_score : ℚ
  required_resources : List String
  data_sources : List String
  implementation_steps : List String
  challenges : List String
deriving DecidableEq

end Agents

/-! ## Document store (`chromadb` collection, as used by both agents)

`collection.upsert` is external; its outcome on one call is modelled by
`StoreOutcome`: either it returns normally or it raises an exception. -/

/-- Outcome of one `collection.upsert` call against the document store. -/
inductive StoreOutcome
  | ok
  | raise (msg : String)
deriving DecidableEq

/-- The store call as the Python runtime sees it: `.ok` returns, `.raise`
propagates an exception to the enclosing `try`. -/
def upsert_outcome : StoreOutcome → Except String Unit
  | .ok => .ok ()
  | .raise m => .error m

/-! ## Resource collector (`agents/resource_collector.py`)

`EnhancedResourceCollector` has `max_retries = 3` and `retry_delay = 1`.
The search adapter is an oracle `String → Nat → Except Unit (List SearchHit)`
(query, attempt index ↦ result or raised exception), the URL liveness probe
is an oracle `String → Nat → ProbeOutcome` (url, attempt index ↦ outcome),
and the GitHub search API is an oracle `String → GithubOutcome`. -/

namespace ResourceCollector

/-- Outcome of one `session.head(url, ...)` probe attempt: the call either
raises (timeout / connection error) or completes with an HTTP status. -/
inductive ProbeOutcome
  | raise
  | status (code : Nat)
deriving DecidableEq

/-- One raw hit returned by the Tavily search adapter.  The collector reads
the keys `title`, `url`, `snippet` and `relevance_score` with `.get`
defaults, so each is optional. -/
structure SearchHit where
  title : Option String
  url : Option String
  snippet : Option String
  relevance_score : Option ℚ
deriving DecidableEq

/-- One repository item of a GitHub search response (`name`, `html_url`
accessed by key; `description` via `.get`). -/
structure RepoHit where
  name : String
  html_url : String
  description : Option String
deriving DecidableEq

/-- Outcome of the GitHub API call: raised exception, or an HTTP response
with a status and (when status 200) a list of repository items. -/
inductive GithubOutcome
  | raise
  | response (status : Nat) (items : List RepoHit)

/-- `self.max_retries = 3` in `EnhancedResourceCollector.__init__`. -/
def max_retries : Nat := 3

/-- The retry loop of `_search_with_retry`: try the adapter; on an
exception retry (after a linear-backoff sleep, irrelevant to the value),
returning `[]` once all attempts are exhausted.  `attempt` is the current
attempt index, the second argument the number of attempts left. -/
def search_retry_loop (search : Nat → Except Unit (List SearchHit)) :
    Nat → Nat → List SearchHit
  | _, 0 => []
  | attempt, r + 1 =>
    match search attempt with
    | .ok results => results
    | .error _ => search_retry_loop search (attempt + 1) r

/-- `_search_with_retry(query)`: up to `max_retries` attempts, `[]` on
exhaustion. -/
def search_with_retry (search : Nat → Except Unit (List SearchHit)) :
    List SearchHit :=
  search_retry_loop search 0 max_retries

/-- The retry loop of `_validate_resource`: probe the URL; a completed
response immediately yields `status == 200`; an exception retries until
the attempt budget is exhausted, then yields `False`. -/
def validate_loop (probe : Nat → ProbeOutcome) : Nat → Nat → Bool
  | _, 0 => false
  | attempt, r + 1 =>
    match probe attempt with
    | .status c => c == 200
    | .raise => validate_loop probe (attempt + 1) r

/-- `_validate_resource(resource)`: HEAD-style probe of `resource.url`
(redirects allowed, 10 s timeout) under the 3-attempt retry policy.  The
probe oracle is already specialised to the resource's URL. -/
def validate_resource (probe : Nat → ProbeOutcome) : Bool :=
  validate_loop probe 0 max_retries

/-- The dataset search query built in `_search_datasets`. -/
def dataset_query (uc : Agents.UseCase) : String :=
  uc.title ++ " dataset data repository"

/-- The documentation search query built in `_search_documentation`. -/
def doc_query (uc : Agents.UseCase) : String :=
  uc.title ++ " tutorial documentation guide"

/-- The `Resource(...)` constructed for one raw hit in `_search_datasets`:
kind dataset, `.get` defaults for the text fields, relevance defaulting to
0.0, owned by the use case via its title. -/
def mk_dataset_resource (uc : Agents.UseCase) (h : SearchHit) : Agents.Resource :=
  ⟨Agents.ResourceType.dataset, h.title.getD "", h.url.getD "",
   h.snippet.getD "", h.relevance_score.getD 0, uc.title⟩

/-- The `Resource(...)` constructed for one raw hit in
`_search_documentation`. -/
def mk_doc_resource (uc : Agents.UseCase) (h : SearchHit) : Agents.Resource :=
  ⟨Agents.ResourceType.documentation, h.title.getD "", h.url.getD "",
   h.snippet.getD "", h.relevance_score.getD 0, uc.title⟩

/-- The accumulation loop shared by `_search_datasets` and
`_search_documentation`: for each raw hit build the Resource and append it
to `validated_resources` exactly when `_validate_resource` returns true. -/
def search_loop (probe : String → Nat → ProbeOutcome)
    (mk : SearchHit → Agents.Resource) :
    List SearchHit → List Agents.Resource → List Agents.Resource
  | [], acc => acc
  | h :: rest, acc =>
    let r := mk h
    if validate_resource (probe r.url) then search_loop probe mk rest (acc ++ [r])
    else search_loop probe mk rest acc

/-- `_search_datasets(use_case)`: query the adapter with retry, map each
hit to a dataset Resource, keep exactly the hits whose URL probe
validates.  No truncation of the validated list occurs in the source. -/
def search_datasets (uc : Agents.UseCase)
    (search : String → Nat → Except Unit (List SearchHit))
    (probe : String → Nat → ProbeOutcome) : List Agents.Resource :=
  search_loop probe (mk_dataset_resource uc)
    (search_with_retry (search (dataset_query uc))) []

/-- `_search_documentation(use_case)`: same shape as the dataset search
with the documentation query and kind. -/
def search_documentation (uc : Agents.UseCase)
    (search : String → Nat → Except Unit (List SearchHit))
    (probe : String → Nat → ProbeOutcome) : List Agents.Resource :=
  search_loop probe (mk_doc_resource uc)
    (search_with_retry (search (doc_query uc))) []

/-- The GitHub search query built in `_search_github`. -/
def github_query (uc : Agents.UseCase) : String :=
  uc.title ++ " " ++ uc.description

/-- `_search_github(use_case)`: `[]` when no token is configured; on a 200
response take the first 5 items (`data.get("items", [])[:5]`), each with a
fixed relevance score of 0.8; `[]` on any other status or exception. -/
def search_github (uc : Agents.UseCase) (github_token : Option String)
    (github : String → GithubOutcome) : List Agents.Resource :=
  match github_token with
  | none => []
  | some _ =>
    match github (github_query uc) with
    | .raise => []
    | .response status items =>
      if status == 200 then
        (items.take 5).map (fun repo =>
          ⟨Agents.ResourceType.github_repo, repo.name, repo.html_url,
           repo.description.getD "", 4 / 5, uc.title⟩)
      else []

/-- `collect_resources(use_cases)`: `[]` for an empty input; otherwise, for
each use case in order, extend the single flat `all_resources` list with
the dataset, documentation and GitHub results (the three sub-searches are
gathered with `return_exceptions=True`; each already absorbs its own
failures and returns a list).  The source returns this flat
`List[Resource]`, not a mapping keyed by use-case title. -/
def collect_resources (use_cases : List Agents.UseCase)
    (search : String → Nat → Except Unit (List SearchHit))
    (probe : String → Nat → ProbeOutcome)
    (github_token : Option String)
    (github : String → GithubOutcome) : List Agents.Resource :=
  if use_cases.isEmpty then []
  else
    use_cases.foldl (fun acc uc =>
      acc ++ search_datasets uc search probe
          ++ search_documentation uc search probe
          ++ search_github uc github_token github) []

end ResourceCollector

/-! ## Research agent (`agents/research_agent.py`)

The language-model response relevant to the claims is the value obtained
after `_clean_json_response` (code-fence stripping) and `json.loads`: a
JSON object modelled as an association list of `JVal`.  A response that is
not valid JSON, or a raised model call, are the error cases of the
`analyze_findings` argument. -/

namespace ResearchAgent

/-- A JSON value as it appears in the analysis schema: a string, a numeric
scalar, or an array of strings. -/
inductive JVal
  | s (v : String)
  | n (v : ℚ)
  | arr (v : List String)
deriving DecidableEq

/-- Key lookup in a parsed JSON object (`content[field]` /
`field in content`). -/
def dlookup {α : Type} (d : List (String × α)) (k : String) : Option α :=
  (d.find? (fun p => p.1 == k)).map (fun p => p.2)

/-- Python `float(x)` applied to a parsed JSON value: a numeric scalar is
returned exactly; other shapes raise (`none`).  Numeric strings, which
CPython `float` would also accept, are not exercised by any claim and are
not modelled. -/
def jfloat : JVal → Option ℚ
  | .n v => some v
  | _ => none

/-- `CompanyAnalysis` dataclass (`agents/__init__.py`) as constructed by
`_parse_analysis_response`: every schema field except `ai_readiness` is
stored as the raw JSON value; `ai_readiness` passes through `float(...)`;
`timestamp` comes from the `datetime.now` default factory, modelled as the
ambient clock value `now`. -/
structure CompanyAnalysis where
  company_name : String
  industry : JVal
  business_model : JVal
  key_products : JVal
  market_position : JVal
  competitors : JVal
  ai_readiness : ℚ
  timestamp : Nat
  trends : JVal
deriving DecidableEq

/-- Total rendering of a JSON value into prompt/report text.  For the two
array-valued fields this is the `", ".join(...)` of `to_dict`; Python
would raise on a joined non-array, a corner no claim exercises. -/
def jrender : JVal → String
  | .s v => v
  | .n v => toString v
  | .arr xs => String.intercalate ", " xs

/-- The dictionary produced by `CompanyAnalysis.to_dict`, including the
composite human-readable `analysis` text. -/
structure AnalysisOut where
  company_name : String
  industry : JVal
  business_model : JVal
  key_products : JVal
  market_position : JVal
  competitors : JVal
  ai_readiness : ℚ
  trends : JVal
  timestamp : Nat
  analysis : String
deriving DecidableEq

/-- `CompanyAnalysis.to_dict()`. -/
def CompanyAnalysis.to_dict (a : CompanyAnalysis) : AnalysisOut :=
  ⟨a.company_name, a.industry, a.business_model, a.key_products,
   a.market_position, a.competitors, a.ai_readiness, a.trends, a.timestamp,
   "Industry: " ++ jrender a.industry ++
   "\nBusiness Model: " ++ jrender a.business_model ++
   "\nKey Products: " ++ jrender a.key_products ++
   "\nMarket Position: " ++ jrender a.market_position ++
   "\nCompetitors: " ++ jrender a.competitors ++
   "\nAI Readiness Score: " ++ toString a.ai_readiness⟩

/-- The failure modes of `research_company` up to analysis construction. -/
inductive ResearchErr
  | llm_failure
  | json_decode
  | missing_fields (fields : List String)
  | float_conversion
deriving DecidableEq

/-- The `required_fields` list checked in `_parse_analysis_response`. -/
def required_fields : List String :=
  ["industry", "business_model", "key_products", "market_position",
   "competitors", "ai_readiness", "trends"]

/-- `_parse_analysis_response`: collect the missing required fields and
raise when any is absent; otherwise construct the `CompanyAnalysis`, with
`ai_readiness` going through `float(...)` (whose own failure propagates).
The `getD` defaults on the other fields are unreachable under the guard
that no required field is missing.  The source passes the raw schema
values through unchanged: no clamping of `ai_readiness` occurs. -/
def parse_analysis_response (content : List (String × JVal)) (company : String)
    (now : Nat) : Except ResearchErr CompanyAnalysis :=
  let missing := required_fields.filter (fun f => (dlookup content f).isNone)
  if missing.isEmpty then
    match jfloat ((dlookup content "ai_readiness").getD (.n 0)) with
    | some v =>
      .ok ⟨company, (dlookup content "industry").getD (.s ""),
        (dlookup content "business_model").getD (.s ""),
        (dlookup content "key_products").getD (.s ""),
        (dlookup content "market_position").getD (.s ""),
        (dlookup content "competitors").getD (.s ""), v, now,
        (dlookup content "trends").getD (.s "")⟩
    | none => .error .float_conversion
  else .error (.missing_fields missing)

/-- `_analyze_findings`: the model call either raises (`.error`), returns
text that fails `json.loads` after cleanup (`some` call, `none` content),
or yields a parsed JSON object handed to `_parse_analysis_response`. -/
def analyze_findings (llm : Except Unit (Option (List (String × JVal))))
    (company : String) (now : Nat) : Except ResearchErr CompanyAnalysis :=
  match llm with
  | .error _ => .error .llm_failure
  | .ok none => .error .json_decode
  | .ok (some content) => parse_analysis_response content company now

/-- `_store_analysis`: the `collection.upsert` call sits inside a
`try/except` whose handler only logs — a raised store exception is
swallowed and the helper returns normally either way. -/
def store_analysis (store : StoreOutcome) : Unit :=
  match upsert_outcome store with
  | .ok _ => ()
  | .error _ => ()

/-- `research_company`: the three search fan-outs shape only the prompt
text (external to the value-level contract, absorbed into the `llm`
oracle); the analysis is parsed, stored via `_store_analysis`, and the
stage returns `analysis.to_dict()`. -/
def research_company (llm : Except Unit (Option (List (String × JVal))))
    (company : String) (now : Nat) (store : StoreOutcome) :
    Except ResearchErr AnalysisOut := do
  let a ← analyze_findings llm company now
  let _ := store_analysis store
  .ok a.to_dict

end ResearchAgent

/-! ## Use-case generator (`agents/use_case_generator.py`)

This module defines its own `UseCase` dataclass (`complexity` an int).
The scoring language-model call is modelled per use case by a
`ScoreResponse`: either the call raised, or it returned text whose
`float(content.strip())` parse is the carried `Option ℚ`. -/

namespace UseCaseGen

/-- `UseCase` dataclass local to `use_case_generator.py`. -/
structure UseCase where
  title : String
  description : String
  impact : String
  complexity : Int
  timeline : String
  priority_score : ℚ
  data_sources : List String
  challenges : List String
deriving DecidableEq

/-- Replace a use case's `priority_score` (the in-place mutation
`use_case.priority_score = ...` of `_score_use_cases`). -/
def setScore (u : UseCase) (s : ℚ) : UseCase :=
  ⟨u.title, u.description, u.impact, u.complexity, u.timeline, s,
   u.data_sources, u.challenges⟩

/-- Outcome of one scoring model call: the call raised, or returned text
whose parse as a Python float is the carried option (`none` models a
`ValueError` from `float(...)`). -/
inductive ScoreResponse
  | content (parsedFloat : Option ℚ)
  | failure
deriving DecidableEq

/-- `_calculate_priority_score`: a successfully parsed score is clamped to
[0,1] by `max(0.0, min(1.0, score))`; a `ValueError` from `float(...)` is
caught and yields 0.5; any exception of the call itself is caught by the
outer handler and also yields 0.5.  The function never propagates an
exception. -/
def calculate_priority_score : ScoreResponse → ℚ
  | .content (some s) => max 0 (min 1 s)
  | .content none => 1 / 2
  | .failure => 1 / 2

/-- The sequential scoring loop of `_score_use_cases`: the i-th use case
receives the score computed from the i-th model response. -/
def assignScores (resp : Nat → ScoreResponse) : List UseCase → Nat → List UseCase
  | [], _ => []
  | u :: us, i => setScore u (calculate_priority_score (resp i)) :: assignScores resp us (i + 1)

/-- Stable insertion of `u` in front of the first element whose score is
not larger; together with `sortDesc` this is extensionally CPython
`sorted(key=lambda x: x.priority_score, reverse=True)`, which is specified
to be stable with equal elements kept in original order. -/
def insertDesc (u : UseCase) : List UseCase → List UseCase
  | [] => [u]
  | v :: vs =>
    if v.priority_score ≤ u.priority_score then u :: v :: vs
    else v :: insertDesc u vs

/-- Stable descending sort by `priority_score`
(`sorted(use_cases, key=lambda x: x.priority_score, reverse=True)`). -/
def sortDesc (l : List UseCase) : List UseCase := l.foldr insertDesc []

/-- `_score_use_cases`: score every use case in order, then return the
stable descending sort by priority score. -/
def score_use_cases (resp : Nat → ScoreResponse) (ucs : List UseCase) :
    List UseCase :=
  sortDesc (assignScores resp ucs 0)

/-- `_store_use_cases`: document building plus `collection.upsert` run
inside a `try/except` that only logs — a raised store exception is
swallowed and the helper returns normally either way. -/
def store_use_cases (store : StoreOutcome) : Unit :=
  match upsert_outcome store with
  | .ok _ => ()
  | .error _ => ()

/-- `generate_use_cases`: initial generation (the model-call-and-parse of
`_generate_initial_use_cases`, whose outcome is the `gen` argument), then
scoring and sorting, then persistence via `_store_use_cases`, returning
the scored, sorted batch. -/
def generate_use_cases (gen : Except String (List UseCase))
    (resp : Nat → ScoreResponse) (store : StoreOutcome) :
    Except String (List UseCase) := do
  let initial ← gen
  let scored := score_use_cases resp initial
  let _ := store_use_cases store
  .ok scored

end UseCaseGen

/-! ## Markdown report generator (`markdown_generator.py`)

`generate_report` reads the analysis dictionary exclusively through
`.get(key, default)`, so the analysis is modelled as a record of optional
fields.  `_format_use_case` reads the use-case dictionary with bracket
access `use_case[key]`, which raises `KeyError` on an absent key; this is
the `Except.error` case.  The resources argument is the mapping the
generator consumes: use-case title ↦ a group dictionary whose keys
`datasets` / `documentation` / `github` hold link dictionaries; an absent
group key and an empty list are both falsy in the `if resources.get(...)`
guards and are modelled as the empty list. -/

namespace Markdown

/-- The analysis dictionary as read by `generate_report` (every access is
`.get` with a default, so each field is optional). -/
structure AnalysisDict where
  industry : Option String
  business_model : Option String
  key_products : Option (List String)
  market_position : Option String
  competitors : Option (List String)
  ai_readiness : Option ℚ
  trends : Option String
deriving DecidableEq

/-- A use-case dictionary as read by `_format_use_case`: the five keys it
accesses with `use_case[key]`, each possibly absent.  `complexity` is
carried as its rendered text (the f-string interpolates `str` of the
stored value). -/
structure UseCaseDict where
  title : Option String
  description : Option String
  impact : Option String
  complexity : Option String
  timeline : Option String
deriving DecidableEq

/-- One link dictionary inside a resource group (`title`, `url`,
`description` keys as read by `_format_resources`). -/
structure ResLink where
  title : String
  url : String
  description : String
deriving DecidableEq

/-- One per-use-case resource group dictionary with the three keys
`_format_resources` reads. -/
structure ResourceGroup where
  datasets : List ResLink
  documentation : List ResLink
  github : List ResLink
deriving DecidableEq

/-- The `{}` default of `resources.get(use_case[title], {})`: every group
lookup inside it is falsy. -/
def emptyGroup : ResourceGroup := ⟨[], [], []⟩

/-- Python bracket access `d[key]`: the value, or a raised `KeyError`. -/
def keyAccess {α : Type} (key : String) : Option α → Except String α
  | some v => .ok v
  | none => .error ("KeyError: " ++ key)

/-- Rendering of the AI-readiness float into the report text. -/
def fmtQ (q : ℚ) : String := toString q

/-- One `- [title](url) - description` bullet of `_format_resources`. -/
def link_line (r : ResLink) : String :=
  "- [" ++ r.title ++ "](" ++ r.url ++ ") - " ++ r.description ++ "\n"

/-- `_format_resources`: one optional section per kind, emitted only when
the group's list is truthy (non-empty). -/
def format_resources (g : ResourceGroup) : String :=
  (if g.datasets.isEmpty then ""
   else "\n##### Datasets\n" ++ String.join (g.datasets.map link_line)) ++
  (if g.documentation.isEmpty then ""
   else "\n##### Documentation & References\n" ++
        String.join (g.documentation.map link_line)) ++
  (if g.github.isEmpty then ""
   else "\n##### GitHub Repositories\n" ++
        String.join (g.github.map link_line))

/-- `_format_use_case`: the five bracket accesses (each can raise
`KeyError`), then the resource group looked up by title with a `{}`
default, rendered by `_format_resources`. -/
def format_use_case (uc : UseCaseDict)
    (resources : List (String × ResourceGroup)) : Except String String := do
  let t ← keyAccess "title" uc.title
  let d ← keyAccess "description" uc.description
  let im ← keyAccess "impact" uc.impact
  let cx ← keyAccess "complexity" uc.complexity
  let tl ← keyAccess "timeline" uc.timeline
  .ok ("\n### " ++ t ++
    "\n- **Description**: " ++ d ++
    "\n- **Business Impact**: " ++ im ++
    "\n- **Complexity**: " ++ cx ++
    "\n- **Timeline**: " ++ tl ++
    "\n#### Resources & Datasets\n" ++
    format_resources ((ResearchAgent.dlookup resources t).getD emptyGroup))

/-- `generate_report`: the fixed header rendered from the analysis
dictionary with `.get` defaults (empty string, empty list, 0.0), followed
by one `_format_use_case` section per use case accumulated left to right;
a `KeyError` raised by any section propagates out of the stage. -/
def generate_report (company : String) (analysis : AnalysisDict)
    (use_cases : List UseCaseDict)
    (resources : List (String × ResourceGroup)) : Except String String :=
  let header :=
    "\n# Market Research & AI Use Case Analysis: " ++ company ++
    "\n## Company Analysis\nIndustry: " ++ analysis.industry.getD "" ++
    "\nBusiness Model: " ++ analysis.business_model.getD "" ++
    "\nKey Products: " ++ String.intercalate ", " (analysis.key_products.getD []) ++
    "\nMarket Position: " ++ analysis.market_position.getD "" ++
    "\nCompetitors: " ++ String.intercalate ", " (analysis.competitors.getD []) ++
    "\nAI Readiness Score: " ++ fmtQ (analysis.ai_readiness.getD 0) ++
    "\n\n## Industry Trends & Market Position\n" ++ analysis.trends.getD "" ++
    "\n\n## AI/ML Use Cases\n"
  use_cases.foldlM (fun acc uc =>
    (format_use_case uc resources).map (fun s => acc ++ s)) header

end Markdown

/-! ## Workflow orchestrator (`streamlit_app.py`)

`WorkflowState` is a `TypedDict`; its optional pipeline fields are read by
`should_continue` only through Python truthiness (`not state.get(key)`).
An absent key, `None`, an empty dict/list and the empty string are all
falsy; each field is modelled by a type whose emptiness is that falsiness.
`resources` has the type `collect_resources` actually returns: the flat
resource list. -/

namespace Orchestrator

/-- The routing targets `should_continue` can return (the node names plus
langgraph's `END`). -/
inductive NextNode
  | generate_use_cases
  | collect_resources
  | generate_report
  | END
deriving DecidableEq

/-- `WorkflowState` (a `MessagesState` with the pipeline fields).  The
analysis dict is an association list; a falsy field (absent, `None`, or
empty) is the empty list / empty string. -/
structure WorkflowState where
  messages : List String
  company : String
  timestamp : Nat
  analysis : List (String × ResearchAgent.JVal)
  use_cases : List UseCaseGen.UseCase
  resources : List Agents.Resource
  report : String
deriving DecidableEq

/-- `should_continue` of `_create_workflow_graph`, verbatim branch order:
an empty `analysis` routes to `generate_use_cases`; otherwise an empty
`use_cases` routes to `collect_resources`; otherwise an empty `resources`
routes to `generate_report`; otherwise `END`. -/
def should_continue (s : WorkflowState) : NextNode :=
  if s.analysis.isEmpty then .generate_use_cases
  else if s.use_cases.isEmpty then .collect_resources
  else if s.resources.isEmpty then .generate_report
  else .END

/-- The slice of `WorkflowState` the report node reads, together with the
run timestamp — the only run-dependent datum in the state.  The resources
field here is the mapping the markdown generator consumes. -/
structure RunState where
  company : String
  timestamp : Nat
  analysis : Markdown.AnalysisDict
  use_cases : List Markdown.UseCaseDict
  resources : List (String × Markdown.ResourceGroup)

/-- The `generate_report` graph node: it passes exactly `company`,
`analysis`, `use_cases` and `resources` to the markdown generator; the
state's timestamp is not among its inputs. -/
def report_node (s : RunState) : Except String String :=
  Markdown.generate_report s.company s.analysis s.use_cases s.resources

end Orchestrator

/-! ## Concrete inputs used by witnesses and counterexamples -/

/-- A concrete use case for exercising the resource collector. -/
def uc1 : Agents.UseCase :=
  ⟨"UC One", "first use case", "high", "3", "6 months", 0, [], [], [], []⟩

/-- A second concrete use case with a distinct title. -/
def uc2 : Agents.UseCase :=
  ⟨"UC Two", "second use case", "medium", "2", "3 months", 0, [], [], [], []⟩

/-- A raw dataset hit for `uc1`. -/
def hit1 : ResourceCollector.SearchHit :=
  ⟨some "Hit One", some "http://one.example", none, none⟩

/-- A raw dataset hit for `uc2`. -/
def hit2 : ResourceCollector.SearchHit :=
  ⟨some "Hit Two", some "http://two.example", none, none⟩

/-- Search adapter giving one dataset hit per use case and nothing else. -/
def c2search : String → Nat → Except Unit (List ResourceCollector.SearchHit) :=
  fun q _ =>
    if q == ResourceCollector.dataset_query uc1 then .ok [hit1]
    else if q == ResourceCollector.dataset_query uc2 then .ok [hit2]
    else .ok []

/-- A probe for which every URL responds 200 on the first attempt. -/
def probeAll200 : String → Nat → ResourceCollector.ProbeOutcome :=
  fun _ _ => .status 200

/-- A GitHub adapter that always raises (never consulted: no token). -/
def ghRaise : String → ResourceCollector.GithubOutcome := fun _ => .raise

/-- The dataset resource collected for `uc1` from `hit1`. -/
def res1 : Agents.Resource :=
  ⟨Agents.ResourceType.dataset, "Hit One", "http://one.example", "", 0, "UC One"⟩

/-- The dataset resource collected for `uc2` from `hit2`. -/
def res2 : Agents.Resource :=
  ⟨Agents.ResourceType.dataset, "Hit Two", "http://two.example", "", 0, "UC Two"⟩

/-- A parsed model response whose `ai_readiness` scalar is 1.5, outside
[0,1], with every required key present. -/
def c3content : List (String × ResearchAgent.JVal) :=
  [("industry", .s "Tech"), ("business_model", .s "SaaS"),
   ("key_products", .arr ["P1"]), ("market_position", .s "Leader"),
   ("competitors", .arr ["X Corp"]), ("ai_readiness", .n (3 / 2)),
   ("trends", .s "AI adoption")]

/-- The analysis `_parse_analysis_response` builds from `c3content`. -/
def c3analysis : ResearchAgent.CompanyAnalysis :=
  ⟨"Acme Corp", .s "Tech", .s "SaaS", .arr ["P1"], .s "Leader",
   .arr ["X Corp"], 3 / 2, 0, .s "AI adoption"⟩

/-- A search adapter returning six hits for the dataset query of `uc1`. -/
def c4search : String → Nat → Except Unit (List ResourceCollector.SearchHit) :=
  fun q _ =>
    if q == ResourceCollector.dataset_query uc1 then
      .ok [⟨some "A", some "http://a.example", none, none⟩,
           ⟨some "B", some "http://b.example", none, none⟩,
           ⟨some "C", some "http://c.example", none, none⟩,
           ⟨some "D", some "http://d.example", none, none⟩,
           ⟨some "E", some "http://e.example", none, none⟩,
           ⟨some "F", some "http://f.example", none, none⟩]
    else .ok []

/-- Search adapter for the C5 witness: one dataset hit for `uc1`. -/
def c5search : String → Nat → Except Unit (List ResourceCollector.SearchHit) :=
  fun q _ =>
    if q == ResourceCollector.dataset_query uc1 then .ok [hit1] else .ok []

/-- A probe that times out on the first attempt and succeeds on the
second — success inside the 3-attempt retry budget. -/
def probeSecondTry : String → Nat → ResourceCollector.ProbeOutcome :=
  fun _ i => if i == 0 then .raise else .status 200

/-- A concrete generated use case for the scoring claims. -/
def g1 : UseCaseGen.UseCase :=
  ⟨"Churn Prediction", "predict churn", "high", 3, "3 months", 0, [], []⟩

/-- An analysis dictionary with every optional field absent. -/
def emptyAnalysisDict : Markdown.AnalysisDict :=
  ⟨none, none, none, none, none, none, none⟩

/-- A use-case dictionary whose `title` key is absent (every other
required key present). -/
def ucNoTitle : Markdown.UseCaseDict :=
  ⟨none, some "desc", some "imp", some "3", some "6 months"⟩

/-- A use-case dictionary with all five required keys present. -/
def ucFull : Markdown.UseCaseDict :=
  ⟨some "Churn Prediction", some "desc", some "imp", some "3", some "6 months"⟩

/-! ## Helper lemmas: resource collector -/

namespace ResourceCollector

/-- The accumulation loop of the dataset/documentation searches computes
the validated hits as a filter over the mapped hits, in adapter order. -/
theorem search_loop_eq (probe : String → Nat → ProbeOutcome)
    (mk : SearchHit → Agents.Resource) :
    ∀ (hits : List SearchHit) (acc : List Agents.Resource),
    search_loop probe mk hits acc
      = acc ++ (hits.map mk).filter (fun r => validate_resource (probe r.url)) := by
  intro hits
  induction hits with
  | nil => intro acc; simp [search_loop]
  | cons h rest ih =>
    intro acc
    by_cases hv : validate_resource (probe (mk h).url)
    · simp [search_loop, hv, ih, List.filter_cons]
    · simp [search_loop, hv, ih, List.filter_cons]

/-- Characterisation of the probe retry loop: it yields `true` exactly
when, within the remaining attempt budget, some attempt completes with
status 200 and every earlier attempt raised. -/
theorem validate_loop_true_iff (p : Nat → ProbeOutcome) :
    ∀ (r a : Nat), validate_loop p a r = true ↔
      ∃ i, i < r ∧ p (a + i) = .status 200 ∧ ∀ j, j < i → p (a + j) = .raise := by
  intro r
  induction r with
  | zero => intro a; simp [validate_loop]
  | succ r ih =>
    intro a
    cases hpa : p a with
    | status c =>
      simp only [validate_loop, hpa]
      constructor
      · intro hc
        refine ⟨0, Nat.succ_pos r, ?_, fun j hj => absurd hj (Nat.not_lt_zero j)⟩
        rw [Nat.add_zero, hpa, beq_iff_eq.mp hc]
      · rintro ⟨i, _, hs, hpre⟩
        cases i with
        | zero =>
          rw [Nat.add_zero, hpa] at hs
          cases hs
          exact beq_self_eq_true 200
        | succ k =>
          have := hpre 0 (Nat.succ_pos k)
          rw [Nat.add_zero, hpa] at this
          cases this
    | raise =>
      simp only [validate_loop, hpa]
      rw [ih (a + 1)]
      constructor
      · rintro ⟨i, hi, hs, hpre⟩
        refine ⟨i + 1, Nat.succ_lt_succ hi, ?_, ?_⟩
        · have : a + (i + 1) = a + 1 + i := by omega
          rw [this]; exact hs
        · intro j hj
          cases j with
          | zero => rw [Nat.add_zero]; exact hpa
          | succ k =>
            have hk : k < i := by omega
            have : a + (k + 1) = a + 1 + k := by omega
            rw [this]; exact hpre k hk
      · rintro ⟨i, hi, hs, hpre⟩
        cases i with
        | zero =>
          rw [Nat.add_zero, hpa] at hs
          cases hs
        | succ k =>
          refine ⟨k, by omega, ?_, ?_⟩
          · have : a + 1 + k = a + (k + 1) := by omega
            rw [this]; exact hs
          · intro j hj
            have : a + 1 + j = a + (j + 1) := by omega
            rw [this]; exact hpre (j + 1) (by omega)

/-- `_validate_resource` succeeds exactly when some attempt within the
3-attempt retry budget completes with status 200 after earlier attempts
that all raised. -/
theorem validate_resource_true_iff (p : Nat → ProbeOutcome) :
    validate_resource p = true ↔
      ∃ i, i < max_retries ∧ p i = .status 200 ∧ ∀ j, j < i → p j = .raise := by
  rw [validate_resource, validate_loop_true_iff]
  simp

end ResourceCollector

/-! ## Helper lemmas: use-case scoring and sorting -/

namespace UseCaseGen

/-- The sequential scoring loop writes into position `i` exactly the score
computed from the `base + i`-th model response. -/
theorem assignScores_getElem (resp : Nat → ScoreResponse) :
    ∀ (l : List UseCase) (base i : Nat),
    (assignScores resp l base)[i]?
      = (l[i]?).map (fun u => setScore u (calculate_priority_score (resp (base + i)))) := by
  intro l
  induction l with
  | nil => intro base i; simp [assignScores]
  | cons u us ih =>
    intro base i
    cases i with
    | zero => simp [assignScores]
    | succ k =>
      simp only [assignScores, List.getElem?_cons_succ, ih (base + 1) k]
      have : base + 1 + k = base + (k + 1) := by omega
      rw [this]

/-- Scoring preserves the batch length. -/
theorem assignScores_length (resp : Nat → ScoreResponse) :
    ∀ (l : List UseCase) (base : Nat),
    (assignScores resp l base).length = l.length := by
  intro l
  induction l with
  | nil => intro base; rfl
  | cons u us ih => intro base; simp [assignScores, ih (base + 1)]

/-- Membership in a stable insertion. -/
theorem mem_insertDesc {x u : UseCase} :
    ∀ {l : List UseCase}, x ∈ insertDesc u l ↔ x = u ∨ x ∈ l := by
  intro l
  induction l with
  | nil => simp [insertDesc]
  | cons v vs ih =>
    by_cases hle : v.priority_score ≤ u.priority_score
    · simp [insertDesc, hle]
    · simp only [insertDesc, if_neg hle, List.mem_cons, ih]
      tauto

/-- Stable insertion is a permutation of consing. -/
theorem insertDesc_perm (u : UseCase) :
    ∀ (l : List UseCase), (insertDesc u l).Perm (u :: l) := by
  intro l
  induction l with
  | nil => simp [insertDesc]
  | cons v vs ih =>
    by_cases hle : v.priority_score ≤ u.priority_score
    · simp [insertDesc, hle]
    · rw [insertDesc, if_neg hle]
      exact ((ih.cons v).trans (List.Perm.swap u v vs))

/-- The stable descending sort is a permutation of its input. -/
theorem sortDesc_perm : ∀ (l : List UseCase), (sortDesc l).Perm l := by
  intro l
  induction l with
  | nil => simp [sortDesc]
  | cons u us ih =>
    exact (insertDesc_perm u (sortDesc us)).trans (ih.cons u)

/-- Stable insertion into a list sorted non-increasingly by priority score
stays sorted. -/
theorem pairwise_insertDesc (u : UseCase) :
    ∀ (l : List UseCase),
    l.Pairwise (fun a b => b.priority_score ≤ a.priority_score) →
    (insertDesc u l).Pairwise (fun a b => b.priority_score ≤ a.priority_score) := by
  intro l
  induction l with
  | nil => intro _; simp [insertDesc]
  | cons v vs ih =>
    intro h
    rw [List.pairwise_cons] at h
    by_cases hle : v.priority_score ≤ u.priority_score
    · rw [insertDesc, if_pos hle, List.pairwise_cons]
      refine ⟨?_, List.pairwise_cons.mpr h⟩
      intro w hw
      rcases List.mem_cons.mp hw with hwv | hwvs
      · exact hwv ▸ hle
      · exact le_trans (h.1 w hwvs) hle
    · rw [insertDesc, if_neg hle, List.pairwise_cons]
      refine ⟨?_, ih h.2⟩
      intro w hw
      rcases mem_insertDesc.mp hw with hwu | hwvs
      · exact hwu ▸ le_of_lt (lt_of_not_le hle)
      · exact h.1 w hwvs

/-- The stable descending sort produces a list sorted non-increasingly by
priority score. -/
theorem sortDesc_pairwise : ∀ (l : List UseCase),
    (sortDesc l).Pairwise (fun a b => b.priority_score ≤ a.priority_score) := by
  intro l
  induction l with
  | nil => simp [sortDesc]
  | cons u us ih => exact pairwise_insertDesc u (sortDesc us) ih

/-- Stability of insertion on a sorted list, expressed through the
equal-score filter: the inserted element lands in front of every element
of equal score. -/
theorem filter_insertDesc (c : ℚ) (u : UseCase) :
    ∀ (l : List UseCase),
    l.Pairwise (fun a b => b.priority_score ≤ a.priority_score) →
    (insertDesc u l).filter (fun x => decide (x.priority_score = c))
      = (if u.priority_score = c then [u] else [])
        ++ l.filter (fun x => decide (x.priority_score = c)) := by
  intro l
  induction l with
  | nil =>
    intro _
    by_cases hc : u.priority_score = c <;> simp [insertDesc, hc]
  | cons v vs ih =>
    intro h
    rw [List.pairwise_cons] at h
    by_cases hle : v.priority_score ≤ u.priority_score
    · rw [insertDesc, if_pos hle]
      by_cases hc : u.priority_score = c <;>
        simp [List.filter_cons, hc]
    · rw [insertDesc, if_neg hle, List.filter_cons, List.filter_cons, ih h.2]
      by_cases hvc : v.priority_score = c
      · have huc : ¬ u.priority_score = c := by
          intro huc
          exact hle (le_of_eq (hvc.trans huc.symm))
        simp [hvc, huc]
      · by_cases huc : u.priority_score = c <;> simp [hvc, huc]

/-- Stability of the whole sort: for each score value, the equal-score
elements of the sorted output are those of the input in the same order. -/
theorem filter_sortDesc (c : ℚ) : ∀ (l : List UseCase),
    (sortDesc l).filter (fun x => decide (x.priority_score = c))
      = l.filter (fun x => decide (x.priority_score = c)) := by
  intro l
  induction l with
  | nil => rfl
  | cons u us ih =>
    have hs : sortDesc (u :: us) = insertDesc u (sortDesc us) := rfl
    rw [hs, filter_insertDesc c u (sortDesc us) (sortDesc_pairwise us), ih,
      List.filter_cons]
    by_cases hc : u.priority_score = c <;> simp [hc]

end UseCaseGen

/-! ## Helper lemmas: markdown generator -/

namespace Markdown

/-- A use-case section renders successfully when all five bracket-accessed
keys are present. -/
theorem format_use_case_ok (uc : UseCaseDict)
    (resources : List (String × ResourceGroup))
    (h : uc.title.isSome ∧ uc.description.isSome ∧ uc.impact.isSome
          ∧ uc.complexity.isSome ∧ uc.timeline.isSome) :
    ∃ s, format_use_case uc resources = .ok s := by
  obtain ⟨t, ht⟩ := Option.isSome_iff_exists.mp h.1
  obtain ⟨d, hd⟩ := Option.isSome_iff_exists.mp h.2.1
  obtain ⟨im, him⟩ := Option.isSome_iff_exists.mp h.2.2.1
  obtain ⟨cx, hcx⟩ := Option.isSome_iff_exists.mp h.2.2.2.1
  obtain ⟨tl, htl⟩ := Option.isSome_iff_exists.mp h.2.2.2.2
  refine ⟨?_, ?_⟩
  · exact "\n### " ++ t ++ "\n- **Description**: " ++ d ++
      "\n- **Business Impact**: " ++ im ++ "\n- **Complexity**: " ++ cx ++
      "\n- **Timeline**: " ++ tl ++ "\n#### Resources & Datasets\n" ++
      format_resources ((ResearchAgent.dlookup resources t).getD emptyGroup)
  · unfold format_use_case
    rw [ht, hd, him, hcx, htl]
    rfl

/-- The report accumulation loop succeeds from any initial string when
every use-case section succeeds. -/
theorem report_fold_ok (resources : List (String × ResourceGroup)) :
    ∀ (ucs : List UseCaseDict),
    (∀ uc ∈ ucs, uc.title.isSome ∧ uc.description.isSome ∧ uc.impact.isSome
          ∧ uc.complexity.isSome ∧ uc.timeline.isSome) →
    ∀ (init : String),
    ∃ s, ucs.foldlM (fun acc uc =>
        (format_use_case uc resources).map (fun t => acc ++ t)) init = .ok s := by
  intro ucs
  induction ucs with
  | nil => intro _ init; exact ⟨init, rfl⟩
  | cons u us ih =>
    intro h init
    obtain ⟨s0, hs0⟩ := format_use_case_ok u resources (h u (List.mem_cons_self u us))
    obtain ⟨s1, hs1⟩ := ih (fun uc huc => h uc (List.mem_cons_of_mem u huc)) (init ++ s0)
    refine ⟨s1, ?_⟩
    rw [List.foldlM_cons, hs0]
    exact hs1

end Markdown

/-! ## Claim theorems -/

/-- Claim C1 (code bug, evaluated at the failing input): for a
`WorkflowState` whose `analysis` field is populated but whose use-case
list is empty, `should_continue` routes to the Resource Collection node,
not to Use-Case Generation as the claim requires — the branch order of
`should_continue` is shifted by one stage. -/
theorem should_continue_misroutes_populated_analysis :
    Orchestrator.should_continue
      ⟨[], "Acme Corp", 0, [("industry", ResearchAgent.JVal.s "Tech")], [], [], ""⟩
      = Orchestrator.NextNode.collect_resources
    ∧ Orchestrator.NextNode.collect_resources
        ≠ Orchestrator.NextNode.generate_use_cases :=
  ⟨rfl, by decide⟩

/-- Claim C2 (code bug, evaluated at the failing input): `collect_resources`
returns one flat, undifferentiated list of Resources — here the resources
of two distinct use cases concatenated into a single sequence — and not a
mapping from use-case title to that use case's resources. -/
theorem collect_resources_returns_flat_list :
    ResourceCollector.collect_resources [uc1, uc2] c2search probeAll200 none ghRaise
      = [res1, res2]
    ∧ res1.use_case_id = uc1.title
    ∧ res2.use_case_id = uc2.title
    ∧ uc1.title ≠ uc2.title := by
  refine ⟨by decide, rfl, rfl, by decide⟩

/-- Claim C3 counterexample: a valid language-model JSON response with all
required keys whose `ai_readiness` scalar is 1.5 yields a CompanyAnalysis
whose AI-readiness score is 1.5, outside [0,1] — no clamping occurs before
storage. -/
theorem analysis_score_not_clamped :
    (ResearchAgent.parse_analysis_response c3content "Acme Corp" 0).map
        (fun a => a.ai_readiness) = .ok (3 / 2)
    ∧ ¬ ((3 : ℚ) / 2 ≤ 1) := by
  refine ⟨rfl, by norm_num⟩

/-- Claim C3 (amended): for every language-model response that parses as
JSON and contains all required keys, the AI-readiness score of the
returned CompanyAnalysis equals the raw parsed scalar unchanged — the
value is passed through `float(...)` without clamping, so it is in [0,1]
exactly when the raw model output is. -/
theorem parse_analysis_preserves_raw_score
    (content : List (String × ResearchAgent.JVal)) (company : String)
    (now : Nat) (a : ResearchAgent.CompanyAnalysis)
    (h : ResearchAgent.parse_analysis_response content company now = .ok a) :
    (ResearchAgent.dlookup content "ai_readiness").bind ResearchAgent.jfloat
      = some a.ai_readiness := by
  unfold ResearchAgent.parse_analysis_response at h
  by_cases hm : (ResearchAgent.required_fields.filter
      (fun f => (ResearchAgent.dlookup content f).isNone)).isEmpty
  · rw [if_pos hm] at h
    have hmem : "ai_readiness" ∈ ResearchAgent.required_fields := by decide
    have hnone : ¬ (ResearchAgent.dlookup content "ai_readiness").isNone := by
      intro hn
      have : "ai_readiness" ∈ (ResearchAgent.required_fields.filter
          (fun f => (ResearchAgent.dlookup content f).isNone)) :=
        List.mem_filter.mpr ⟨hmem, by simpa using hn⟩
      rw [List.isEmpty_iff] at hm
      simp [hm] at this
    have hsome : ResearchAgent.dlookup content "ai_readiness" ≠ none := by
      simpa [Option.isNone_iff_eq_none] using hnone
    obtain ⟨j, hj⟩ := Option.ne_none_iff_exists'.mp hsome
    rw [hj] at h ⊢
    cases hjf : ResearchAgent.jfloat j with
    | none => rw [Option.getD_some, hjf] at h; cases h
    | some v =>
      rw [Option.getD_some, hjf] at h
      cases h
      simp [Option.bind, hjf]
  · rw [if_neg hm] at h
    cases h

/-- Witness for `parse_analysis_preserves_raw_score` at the concrete
response `c3content`. -/
theorem parse_analysis_preserves_raw_score_witness :
    ResearchAgent.parse_analysis_response c3content "Acme Corp" 0 = .ok c3analysis
    ∧ (ResearchAgent.dlookup c3content "ai_readiness").bind ResearchAgent.jfloat
        = some c3analysis.ai_readiness :=
  ⟨rfl, parse_analysis_preserves_raw_score c3content "Acme Corp" 0 c3analysis rfl⟩

/-- Claim C4 counterexample: for a dataset search whose adapter returns
six hits that all validate, `_search_datasets` returns six Resources — it
applies no top-5 cap. -/
theorem search_datasets_exceeds_five :
    ¬ ((ResourceCollector.search_datasets uc1 c4search probeAll200).length ≤ 5) := by
  decide

/-- Claim C4 (amended): the dataset and documentation sub-searches return
one Resource per validated hit, in the order the adapter returned them,
with no cap — only the source-repository search truncates to the top 5
items of the API response. -/
theorem dataset_doc_searches_uncapped (uc : Agents.UseCase)
    (search : String → Nat → Except Unit (List ResourceCollector.SearchHit))
    (probe : String → Nat → ResourceCollector.ProbeOutcome) :
    ResourceCollector.search_datasets uc search probe
      = ((ResourceCollector.search_with_retry
            (search (ResourceCollector.dataset_query uc))).map
          (ResourceCollector.mk_dataset_resource uc)).filter
            (fun r => ResourceCollector.validate_resource (probe r.url))
    ∧ ResourceCollector.search_documentation uc search probe
      = ((ResourceCollector.search_with_retry
            (search (ResourceCollector.doc_query uc))).map
          (ResourceCollector.mk_doc_resource uc)).filter
            (fun r => ResourceCollector.validate_resource (probe r.url))
    ∧ ∀ (token : Option String) (github : String → ResourceCollector.GithubOutcome),
        (ResourceCollector.search_github uc token github).length ≤ 5 := by
  refine ⟨?_, ?_, ?_⟩
  · rw [ResourceCollector.search_datasets, ResourceCollector.search_loop_eq]
    rfl
  · rw [ResourceCollector.search_documentation, ResourceCollector.search_loop_eq]
    rfl
  · intro token github
    cases token with
    | none => simp [ResourceCollector.search_github]
    | some tok =>
      cases hgh : github (ResourceCollector.github_query uc) with
      | raise => simp [ResourceCollector.search_github, hgh]
      | response status items =>
        by_cases hs : status == 200
        · simp only [ResourceCollector.search_github, hgh, if_pos hs,
            List.length_map, List.length_take]
          exact min_le_left 5 items.length
        · simp [ResourceCollector.search_github, hgh, hs]

/-- Claim C5: a dataset or documentation candidate appears in the
collected result exactly when its URL probe completed with status 200
within the 3-attempt retry budget (every earlier attempt having raised);
in particular a candidate whose probe raises on every attempt is absent
from the result — discarded, not stored in any marked form. -/
theorem resource_present_iff_probe_success (uc : Agents.UseCase)
    (search : String → Nat → Except Unit (List ResourceCollector.SearchHit))
    (probe : String → Nat → ResourceCollector.ProbeOutcome)
    (hit : ResourceCollector.SearchHit) :
    (hit ∈ ResourceCollector.search_with_retry
        (search (ResourceCollector.dataset_query uc)) →
      (ResourceCollector.mk_dataset_resource uc hit
          ∈ ResourceCollector.search_datasets uc search probe ↔
        ∃ i, i < ResourceCollector.max_retries
          ∧ probe (hit.url.getD "") i = .status 200
          ∧ ∀ j, j < i → probe (hit.url.getD "") j = .raise))
    ∧ (hit ∈ ResourceCollector.search_with_retry
        (search (ResourceCollector.doc_query uc)) →
      (ResourceCollector.mk_doc_resource uc hit
          ∈ ResourceCollector.search_documentation uc search probe ↔
        ∃ i, i < ResourceCollector.max_retries
          ∧ probe (hit.url.getD "") i = .status 200
          ∧ ∀ j, j < i → probe (hit.url.getD "") j = .raise))
    ∧ ((∀ i, probe (hit.url.getD "") i = .raise) →
        ResourceCollector.mk_dataset_resource uc hit
          ∉ ResourceCollector.search_datasets uc search probe
        ∧ ResourceCollector.mk_doc_resource uc hit
          ∉ ResourceCollector.search_documentation uc search probe) := by
  have hds : ResourceCollector.search_datasets uc search probe
      = ((ResourceCollector.search_with_retry
            (search (ResourceCollector.dataset_query uc))).map
          (ResourceCollector.mk_dataset_resource uc)).filter
            (fun r => ResourceCollector.validate_resource (probe r.url)) := by
    rw [ResourceCollector.search_datasets, ResourceCollector.search_loop_eq]; rfl
  have hdoc : ResourceCollector.search_documentation uc search probe
      = ((ResourceCollector.search_with_retry
            (search (ResourceCollector.doc_query uc))).map
          (ResourceCollector.mk_doc_resource uc)).filter
            (fun r => ResourceCollector.validate_resource (probe r.url)) := by
    rw [ResourceCollector.search_documentation, ResourceCollector.search_loop_eq]; rfl
  have hurl_ds : (ResourceCollector.mk_dataset_resource uc hit).url = hit.url.getD "" := rfl
  have hurl_doc : (ResourceCollector.mk_doc_resource uc hit).url = hit.url.getD "" := rfl
  refine ⟨?_, ?_, ?_⟩
  · intro hmem
    rw [hds]
    constructor
    · intro hin
      have hv := (List.mem_filter.mp hin).2
      rw [hurl_ds] at hv
      exact (ResourceCollector.validate_resource_true_iff _).mp (by simpa using hv)
    · intro hex
      refine List.mem_filter.mpr ⟨List.mem_map_of_mem _ hmem, ?_⟩
      rw [hurl_ds]
      simpa using (ResourceCollector.validate_resource_true_iff _).mpr hex
  · intro hmem
    rw [hdoc]
    constructor
    · intro hin
      have hv := (List.mem_filter.mp hin).2
      rw [hurl_doc] at hv
      exact (ResourceCollector.validate_resource_true_iff _).mp (by simpa using hv)
    · intro hex
      refine List.mem_filter.mpr ⟨List.mem_map_of_mem _ hmem, ?_⟩
      rw [hurl_doc]
      simpa using (ResourceCollector.validate_resource_true_iff _).mpr hex
  · intro hraise
    constructor
    · intro hin
      rw [hds] at hin
      have hv := (List.mem_filter.mp hin).2
      rw [hurl_ds] at hv
      obtain ⟨i, _, hs, _⟩ := (ResourceCollector.validate_resource_true_iff _).mp
        (by simpa using hv)
      rw [hraise i] at hs
      cases hs
    · intro hin
      rw [hdoc] at hin
      have hv := (List.mem_filter.mp hin).2
      rw [hurl_doc] at hv
      obtain ⟨i, _, hs, _⟩ := (ResourceCollector.validate_resource_true_iff _).mp
        (by simpa using hv)
      rw [hraise i] at hs
      cases hs

/-- Witness for `resource_present_iff_probe_success`: a concrete hit whose
probe raises on attempt 0 and completes with 200 on attempt 1 — success
within the retry budget — is present in the collected result. -/
theorem resource_present_iff_probe_success_witness :
    hit1 ∈ ResourceCollector.search_with_retry
        (c5search (ResourceCollector.dataset_query uc1))
    ∧ (ResourceCollector.mk_dataset_resource uc1 hit1
          ∈ ResourceCollector.search_datasets uc1 c5search probeSecondTry ↔
        ∃ i, i < ResourceCollector.max_retries
          ∧ probeSecondTry (hit1.url.getD "") i = .status 200
          ∧ ∀ j, j < i → probeSecondTry (hit1.url.getD "") j = .raise) :=
  ⟨by decide,
   (resource_present_iff_probe_success uc1 c5search probeSecondTry hit1).1 (by decide)⟩

/-- Claim C6: a scoring response that fails to parse as a float results in
a priority score of exactly 0.5 for the affected use case, and the batch
is never aborted — the scored, sorted output has the same length as the
input batch. -/
theorem scoring_parse_failure_defaults (resp : Nat → UseCaseGen.ScoreResponse)
    (ucs : List UseCaseGen.UseCase) (i : Nat)
    (hfail : resp i = .content none) :
    ((UseCaseGen.assignScores resp ucs 0)[i]?).map
        (fun u => u.priority_score) = (ucs[i]?).map (fun _ => (1 : ℚ) / 2)
    ∧ (UseCaseGen.score_use_cases resp ucs).length = ucs.length := by
  constructor
  · rw [UseCaseGen.assignScores_getElem resp ucs 0 i]
    cases h : ucs[i]? with
    | none => rfl
    | some u =>
      rw [Nat.zero_add, hfail]
      rfl
  · rw [UseCaseGen.score_use_cases,
      (UseCaseGen.sortDesc_perm (UseCaseGen.assignScores resp ucs 0)).length_eq,
      UseCaseGen.assignScores_length]

/-- Witness for `scoring_parse_failure_defaults`: every scoring response
fails to parse; the single use case of the batch is scored exactly 0.5 and
the batch survives. -/
theorem scoring_parse_failure_defaults_witness :
    ((UseCaseGen.assignScores (fun _ => .content none) [g1] 0)[0]?).map
        (fun u => u.priority_score) = ([g1][0]?).map (fun _ => (1 : ℚ) / 2)
    ∧ (UseCaseGen.score_use_cases (fun _ => .content none) [g1]).length
        = [g1].length :=
  scoring_parse_failure_defaults (fun _ => .content none) [g1] 0 rfl

/-- Claim C7: after scoring, the batch returned by `_score_use_cases` is
sorted non-increasingly by priority score, and the sort is stable — for
every score value the equal-score use cases appear in the same relative
order as in the scored batch. -/
theorem score_use_cases_sorted_and_stable (resp : Nat → UseCaseGen.ScoreResponse)
    (ucs : List UseCaseGen.UseCase) :
    (UseCaseGen.score_use_cases resp ucs).Pairwise
        (fun a b => b.priority_score ≤ a.priority_score)
    ∧ ∀ c : ℚ, (UseCaseGen.score_use_cases resp ucs).filter
          (fun u => decide (u.priority_score = c))
        = (UseCaseGen.assignScores resp ucs 0).filter
          (fun u => decide (u.priority_score = c)) :=
  ⟨UseCaseGen.sortDesc_pairwise (UseCaseGen.assignScores resp ucs 0),
   fun c => UseCaseGen.filter_sortDesc c (UseCaseGen.assignScores resp ucs 0)⟩

/-- Claim C8 counterexample: a use case whose `title` key is absent makes
the Report stage raise a `KeyError` — the absent field is not rendered as
an empty-string default. -/
theorem report_raises_on_missing_use_case_field :
    Markdown.generate_report "Acme Corp" emptyAnalysisDict [ucNoTitle] []
      = .error "KeyError: title" := rfl

/-- Claim C8 (amended): the Report stage never raises provided every use
case carries its five required keys (title, description, impact,
complexity, timeline); absent analysis fields always render through
`.get` defaults (empty string, empty list, 0.0) and never cause a
failure, but an absent required use-case key raises a `KeyError` instead
of rendering a default. -/
theorem generate_report_ok_of_required_fields (company : String)
    (analysis : Markdown.AnalysisDict) (ucs : List Markdown.UseCaseDict)
    (resources : List (String × Markdown.ResourceGroup))
    (h : ∀ uc ∈ ucs, uc.title.isSome ∧ uc.description.isSome ∧ uc.impact.isSome
          ∧ uc.complexity.isSome ∧ uc.timeline.isSome) :
    ∃ s, Markdown.generate_report company analysis ucs resources = .ok s :=
  Markdown.report_fold_ok resources ucs h _

/-- Witness for `generate_report_ok_of_required_fields`: a report over an
analysis with every field absent and one fully populated use case renders
successfully. -/
theorem generate_report_ok_of_required_fields_witness :
    (∀ uc ∈ [ucFull], uc.title.isSome ∧ uc.description.isSome ∧ uc.impact.isSome
          ∧ uc.complexity.isSome ∧ uc.timeline.isSome)
    ∧ ∃ s, Markdown.generate_report "Acme Corp" emptyAnalysisDict [ucFull] []
        = .ok s :=
  ⟨by decide,
   generate_report_ok_of_required_fields "Acme Corp" emptyAnalysisDict [ucFull] []
     (by decide)⟩

/-- Claim C9: the Report stage is deterministic — the rendered report is a
function of exactly (company, analysis, use cases, resources); the run
timestamp, the only run-dependent datum of the workflow state, does not
influence the output, so two invocations with identical inputs are
byte-identical. -/
theorem report_stage_deterministic (c : String) (t1 t2 : Nat)
    (a : Markdown.AnalysisDict) (u : List Markdown.UseCaseDict)
    (r : List (String × Markdown.ResourceGroup)) :
    Orchestrator.report_node ⟨c, t1, a, u, r⟩
      = Orchestrator.report_node ⟨c, t2, a, u, r⟩ := rfl

/-- Claim C10: a raised document-store upsert never propagates out of the
Research or Use-Case Generation stage — the stage's result is identical
whether the store call raises or succeeds, and the stage still returns its
computed (scored, sorted) result. -/
theorem store_failure_never_propagates
    (llm : Except Unit (Option (List (String × ResearchAgent.JVal))))
    (company : String) (now : Nat) (m : String)
    (gen : Except String (List UseCaseGen.UseCase))
    (resp : Nat → UseCaseGen.ScoreResponse)
    (l : List UseCaseGen.UseCase) :
    ResearchAgent.research_company llm company now (.raise m)
      = ResearchAgent.research_company llm company now .ok
    ∧ UseCaseGen.generate_use_cases gen resp (.raise m)
      = UseCaseGen.generate_use_cases gen resp .ok
    ∧ UseCaseGen.generate_use_cases (.ok l) resp (.raise m)
      = .ok (UseCaseGen.score_use_cases resp l) :=
  ⟨rfl, rfl, rfl⟩
